import Mathlib

/-!
Shallow embedding of the contract-analysis pipeline of the pwc-task1
repository: the contract data model (api/db/models.py), the internal
callback API handlers (api/handlers/v1/internal_contracts.py), the public
pipeline trigger (api/handlers/v1/contracts.py), the worker-to-API HTTP
client (libs/pwc/api_interface/client.py) and the task-executor layer
(libs/pwc/task_interface/base.py, analyze_contracts worker).

Python datetimes are modelled as Nat clock values passed in explicitly,
Python floats as Rat (no claim involves float arithmetic), and the MongoDB
document store for a single contract as an `Option Contract` (the result of
the lookup by id).  A handler raising an HTTPException is modelled as
`Except.error`; raising happens before any save, so an error result means
the stored record is unchanged.
-/

namespace PwC

/-- Contract processing states (libs/pwc/task_interface/schema.py,
ContractState). -/
inductive ContractState where
  | pending
  | processing
  | analyzing
  | evaluating
  | completed
  | failed
  | rejected
deriving DecidableEq, Repr

/-- Wire value of a state (the lowercase string value of the Python enum). -/
def ContractState.toValue : ContractState → String
  | .pending => "pending"
  | .processing => "processing"
  | .analyzing => "analyzing"
  | .evaluating => "evaluating"
  | .completed => "completed"
  | .failed => "failed"
  | .rejected => "rejected"

/-- Parsing a state string, as Python's `ContractState(state)` constructor
does: returns the member whose value equals the string, otherwise a
ValueError (modelled as `none`). -/
def ContractState.ofString (s : String) : Option ContractState :=
  if s = "pending" then some .pending
  else if s = "processing" then some .processing
  else if s = "analyzing" then some .analyzing
  else if s = "evaluating" then some .evaluating
  else if s = "completed" then some .completed
  else if s = "failed" then some .failed
  else if s = "rejected" then some .rejected
  else none

/-- The seven recognized state strings. -/
def stateStrings : List String :=
  ["pending", "processing", "analyzing", "evaluating", "completed",
   "failed", "rejected"]

/-- One entry of a contract's pipeline-run history: the dict
`\x7b"run_id", "state", "timestamp"\x7d` appended by the trigger handler and by
change-state. -/
structure PipelineRun where
  run_id : String
  state : String
  timestamp : Nat
deriving DecidableEq, Repr

/-- One extracted clause (schema.py, ExtractedClause).  The clause type is
kept as its wire string; the Python field named `section` is rendered
`sectionLabel` because `section` is a Lean keyword. -/
structure ExtractedClause where
  type : String
  content : String
  confidence : Rat
  page_number : Option Nat
  sectionLabel : Option String
deriving DecidableEq, Repr

/-- Result of clause analysis (schema.py, ContractAnalysisResult); the
`Dict[str, Any]` metadata is modelled as an association list. -/
structure ContractAnalysisResult where
  clauses : List ExtractedClause
  metadata : List (String × String)
  processing_time : Rat
  model_used : String
deriving DecidableEq, Repr

/-- Result of health evaluation (schema.py, ContractEvaluationResult). -/
structure ContractEvaluationResult where
  approved : Bool
  reasoning : String
  risk_score : Rat
  recommendations : List String
  critical_issues : List String
  processing_time : Rat
deriving DecidableEq, Repr

/-- The Contract document (api/db/models.py, class Contract). -/
structure Contract where
  filename : String
  file_path : String
  file_size : Nat
  content_type : String
  client_id : Option String
  uploaded_by : String
  title : Option String
  status : String
  analysis_result : Option ContractAnalysisResult
  evaluation_result : Option ContractEvaluationResult
  pipeline_runs : List PipelineRun
  created_at : Nat
  updated_at : Nat
  error_message : Option String
deriving DecidableEq, Repr

/-- A contract as created on upload: the model's field defaults
(status = pending, no results, empty run history, no error). -/
def freshContract (filename file_path : String) (file_size : Nat)
    (content_type : String) (client_id : Option String)
    (uploaded_by : String) (now : Nat) : Contract :=
  { filename := filename
    file_path := file_path
    file_size := file_size
    content_type := content_type
    client_id := client_id
    uploaded_by := uploaded_by
    title := none
    status := ContractState.pending.toValue
    analysis_result := none
    evaluation_result := none
    pipeline_runs := []
    created_at := now
    updated_at := now
    error_message := none }

/-- HTTPException outcomes of the handlers.  `invalidIdFormat` is the 400
raised by `_get_contract` on an unparsable object id (id parsing itself is
outside the model: handlers here receive the lookup result directly),
`notFound` the 404 when the lookup misses, `badRequest` a 400 with its
detail string. -/
inductive ApiError where
  | invalidIdFormat
  | notFound
  | badRequest (detail : String)
deriving DecidableEq, Repr

/-- GET is-latest (internal_contracts.py, is_pipeline_latest): true iff the
run list is non-empty and its last element's run_id equals the supplied
one. -/
def isPipelineLatest (store : Option Contract) (run_id : String) :
    Except ApiError Bool :=
  match store with
  | none => Except.error ApiError.notFound
  | some contract =>
      Except.ok (decide (contract.pipeline_runs.length > 0) &&
        (contract.pipeline_runs.getLast?.map PipelineRun.run_id == some run_id))

/-- PUT change-state (internal_contracts.py, change_contract_state):
validate the state string, set status and updated_at, and append a
pipeline-run entry when a (truthy, i.e. non-empty) run_id is supplied.
The Python guard `if not contract.pipeline_runs: contract.pipeline_runs = []`
is a no-op here since the field is always a list. -/
def changeContractState (store : Option Contract) (state : String)
    (run_id : Option String) (now : Nat) : Except ApiError Contract :=
  match store with
  | none => Except.error ApiError.notFound
  | some contract =>
      match ContractState.ofString state with
      | none => Except.error (ApiError.badRequest ("Invalid state: " ++ state))
      | some new_state =>
          let c := { contract with
                       status := new_state.toValue
                       updated_at := now }
          let c :=
            match run_id with
            | some rid =>
                if rid = "" then c
                else { c with pipeline_runs :=
                         c.pipeline_runs ++ [⟨rid, new_state.toValue, now⟩] }
            | none => c
          Except.ok c

/-- POST set-analysis-result (internal_contracts.py, set_analysis_result). -/
def setAnalysisResult (store : Option Contract)
    (analysis_result : ContractAnalysisResult) (now : Nat) :
    Except ApiError Contract :=
  match store with
  | none => Except.error ApiError.notFound
  | some contract =>
      Except.ok { contract with
                    analysis_result := some analysis_result
                    updated_at := now }

/-- POST set-evaluation-result (internal_contracts.py, set_evaluation_result).
Note: the handler stores the result unconditionally; it does not check that
an analysis result is already present. -/
def setEvaluationResult (store : Option Contract)
    (evaluation_result : ContractEvaluationResult) (now : Nat) :
    Except ApiError Contract :=
  match store with
  | none => Except.error ApiError.notFound
  | some contract =>
      Except.ok { contract with
                    evaluation_result := some evaluation_result
                    updated_at := now }

/-- PUT failed (internal_contracts.py, report_contract_failure): set status
to failed and overwrite the error message (error_type is received but its
storage is commented out in the source). -/
def reportContractFailure (store : Option Contract)
    (error_message : String) (error_type : String) (now : Nat) :
    Except ApiError Contract :=
  match store with
  | none => Except.error ApiError.notFound
  | some contract =>
      Except.ok { contract with
                    status := ContractState.failed.toValue
                    error_message := some error_message
                    updated_at := now }

/-- One internal-callback operation, with its arguments and the clock value
at which it runs. -/
inductive CallbackOp where
  | changeState (state : String) (run_id : Option String) (now : Nat)
  | setAnalysis (r : ContractAnalysisResult) (now : Nat)
  | setEvaluation (r : ContractEvaluationResult) (now : Nat)
  | reportFailure (msg : String) (etype : String) (now : Nat)
deriving Repr

/-- Effect of one callback on the stored record: a successful handler saves
the updated contract; a handler that raises saves nothing. -/
def applyOp (store : Option Contract) (op : CallbackOp) : Option Contract :=
  let res : Except ApiError Contract :=
    match op with
    | .changeState s rid now => changeContractState store s rid now
    | .setAnalysis r now => setAnalysisResult store r now
    | .setEvaluation r now => setEvaluationResult store r now
    | .reportFailure m t now => reportContractFailure store m t now
  match res with
  | .ok c => some c
  | .error _ => store

/-- Effect of a sequence of callbacks. -/
def applyOps (store : Option Contract) (ops : List CallbackOp) :
    Option Contract :=
  ops.foldl applyOp store

/-- States from which the public trigger endpoint accepts a contract
(contracts.py, trigger_genai_analysis, allowed_states). -/
def allowedTriggerStates : List String :=
  [ContractState.pending.toValue, ContractState.failed.toValue,
   ContractState.completed.toValue]

/-- The fixed task chain submitted by the trigger handler, by task name and
in order. -/
def pipelineChainTasks : List String :=
  ["contract_analysis.change_state", "contract_analysis.parse_document",
   "contract_analysis.analyze_clauses", "contract_analysis.evaluate_health",
   "contract_analysis.change_state"]

/-- POST init-genai (contracts.py, trigger_genai_analysis): 404 when the
contract is absent; 400 when its status is outside the allowed list, raised
before any mutation or dispatch; otherwise append one pipeline-run entry
with a fresh run id, set status to processing, save, and submit the fixed
task chain. -/
def triggerGenaiAnalysis (store : Option Contract) (run_id : String)
    (now : Nat) : Except ApiError (Contract × List String) :=
  match store with
  | none => Except.error ApiError.notFound
  | some contract =>
      if contract.status ∈ allowedTriggerStates then
        Except.ok
          ({ contract with
               pipeline_runs := contract.pipeline_runs ++
                 [⟨run_id, ContractState.processing.toValue, now⟩]
               status := ContractState.processing.toValue
               updated_at := now },
           pipelineChainTasks)
      else Except.error (ApiError.badRequest contract.status)

/-- An exception raised by one HTTP attempt of the worker client (network
error or raise_for_status). -/
structure ClientError where
  message : String
deriving DecidableEq, Repr

/-- APIClient._make_request (api_interface/client.py): the literal
`for attempt in range(3)` loop, unrolled.  `attempts i` is the outcome of
the i-th HTTP attempt.  Returns the result together with the number of
attempts actually made and the number of 1-second sleeps taken (the code
sleeps after every failed non-final attempt). -/
def makeRequest {α : Type} (attempts : Nat → Except ClientError α) :
    Except ClientError α × Nat × Nat :=
  match attempts 0 with
  | Except.ok r => (Except.ok r, 1, 0)
  | Except.error _ =>
      match attempts 1 with
      | Except.ok r => (Except.ok r, 2, 1)
      | Except.error _ => (attempts 2, 3, 2)

/-- Body of a successful is-latest response; the field is optional because
the client reads it with `.get("is_latest", False)`. -/
structure IsLatestResponse where
  is_latest : Option Bool
deriving DecidableEq, Repr

/-- APIClient.is_pipeline_latest (client.py): wraps the request in
try/except, returning the is_latest field (default False) on success and
False when the request raised after its retries. -/
def isPipelineLatestClient
    (attempts : Nat → Except ClientError IsLatestResponse) : Bool :=
  match (makeRequest attempts).1 with
  | Except.ok response => response.is_latest.getD false
  | Except.error _ => false

/-- One observable action of a pipeline-step executor: the is-latest
callback, a blob-store read, an AI-provider call, or a durable write issued
through an internal callback endpoint. -/
inductive StepEffect where
  | latestCheck
  | blobRead (path : String)
  | aiCall
  | callbackWrite (endpoint : String)
deriving DecidableEq, Repr

/-- Whether an effect durably writes to the contract record or blob store. -/
def StepEffect.isDurableWrite : StepEffect → Bool
  | StepEffect.callbackWrite _ => true
  | _ => false

/-- Success-path effects of AnalyzeContractExecutor.run
(analyze_contracts/executors/analyze_executor.py): load the parsed text
blob, call the AI provider, then persist the analysis result through the
set-analysis-result callback. -/
def analyzeRunEffects (contract_id run_id : String) : List StepEffect :=
  [StepEffect.blobRead ("parsed/" ++ contract_id ++ "/" ++ run_id ++ "/text.txt"),
   StepEffect.aiCall,
   StepEffect.callbackWrite "set-analysis-result"]

/-- ContractTaskExecutor.start (task_interface/base.py): call
is_pipeline_latest first; when it returns false, skip the run entirely,
otherwise run the step's own effects. -/
def contractTaskExecutorStart (isLatest : Bool)
    (runEffects : List StepEffect) : List StepEffect :=
  StepEffect.latestCheck :: (if isLatest then runEffects else [])

/-- The Celery task wrapper analyze_contract_clauses
(analyze_contracts/main.py): it invokes `executor.run(task_info_dict)`
directly, not `executor.start`, so the step's effects do not depend on
whether the run is still the latest. -/
def celeryAnalyzeClausesEffects (contract_id run_id : String)
    (isLatest : Bool) : List StepEffect :=
  analyzeRunEffects contract_id run_id

/-- ReportFailureExecutor.run (executors/failure_executor.py): reports the
failure through the callback and, if that callback itself raises, logs and
swallows the exception instead of re-raising. -/
def reportFailureExecutorRun (callback : Except ClientError Unit) :
    Except ClientError Unit :=
  match callback with
  | Except.ok _ => Except.ok ()
  | Except.error _ => Except.ok ()

/-- A contract with every pipeline-run timestamp rewritten: used to state
that the is-latest check does not depend on timestamps. -/
def mapTimestamps (f : Nat → Nat) (c : Contract) : Contract :=
  { c with pipeline_runs :=
      c.pipeline_runs.map (fun r => { r with timestamp := f r.timestamp }) }

/-! Sample values used by closed witness statements. -/

/-- A sample extracted clause. -/
def sampleClause : ExtractedClause :=
  { type := "payment_terms", content := "net 30", confidence := 1,
    page_number := none, sectionLabel := none }

/-- A sample analysis result. -/
def sampleAnalysis : ContractAnalysisResult :=
  { clauses := [sampleClause], metadata := [], processing_time := 0,
    model_used := "gpt-4" }

/-- A sample evaluation result. -/
def sampleEval : ContractEvaluationResult :=
  { approved := true, reasoning := "ok", risk_score := 0,
    recommendations := [], critical_issues := [], processing_time := 0 }

/-- A sample freshly uploaded contract. -/
def sampleContract : Contract :=
  freshContract "a.pdf" "uploads/a.pdf" 10 "application/pdf" none "alice" 0

/-! Helper lemmas. -/

/-- getLast? commutes with map. -/
theorem getLast?_map_comm {α β : Type} (g : α → β) (l : List α) :
    (l.map g).getLast? = (l.getLast?).map g := by
  induction l with
  | nil => rfl
  | cons a t ih =>
      cases t with
      | nil => rfl
      | cons b t2 =>
          simp only [List.map_cons] at ih ⊢
          rw [List.getLast?_cons_cons]
          exact ih

/-! Claim theorems. -/

/-- C4: for every contract and run identifier, the is-latest query answers
true iff the identifier equals the run_id of the last element of the
contract's pipeline-run list, answers false on an empty list, and its
answer never depends on the timestamps stored in the list. -/
theorem is_latest_iff_last_run (c : Contract) (rid : String) :
    (isPipelineLatest (some c) rid =
       Except.ok (c.pipeline_runs.getLast?.map PipelineRun.run_id == some rid))
    ∧ (c.pipeline_runs = [] → isPipelineLatest (some c) rid = Except.ok false)
    ∧ (∀ f : Nat → Nat,
         isPipelineLatest (some (mapTimestamps f c)) rid =
           isPipelineLatest (some c) rid) := by
  refine ⟨?_, ?_, ?_⟩
  · rcases h : c.pipeline_runs with _ | ⟨a, t⟩ <;>
      simp [isPipelineLatest, h]
  · intro h
    simp [isPipelineLatest, h]
  · intro f
    simp only [isPipelineLatest, mapTimestamps, List.length_map,
      getLast?_map_comm, Option.map_map]
    rfl

/-- Witness for is_latest_iff_last_run at a concrete contract. -/
theorem is_latest_iff_last_run_witness :
    isPipelineLatest (some sampleContract) "r1" = Except.ok false :=
  (is_latest_iff_last_run sampleContract "r1").2.1 rfl

/-- C8: the worker client's request helper makes at most three attempts
with one fixed sleep between consecutive attempts; a first successful
attempt returns its response immediately with no further attempts, and if
all three attempts raise, the exception of the last attempt propagates. -/
theorem make_request_bounded_retry {α : Type}
    (attempts : Nat → Except ClientError α) :
    ((makeRequest attempts).2.1 ≤ 3)
    ∧ ((makeRequest attempts).2.2 = (makeRequest attempts).2.1 - 1)
    ∧ (∀ r, attempts 0 = Except.ok r →
        makeRequest attempts = (Except.ok r, 1, 0))
    ∧ (∀ e0 r, attempts 0 = Except.error e0 → attempts 1 = Except.ok r →
        makeRequest attempts = (Except.ok r, 2, 1))
    ∧ (∀ e0 e1 r, attempts 0 = Except.error e0 →
        attempts 1 = Except.error e1 → attempts 2 = Except.ok r →
        makeRequest attempts = (Except.ok r, 3, 2))
    ∧ (∀ e0 e1 e2, attempts 0 = Except.error e0 →
        attempts 1 = Except.error e1 → attempts 2 = Except.error e2 →
        makeRequest attempts = (Except.error e2, 3, 2)) := by
  refine ⟨?_, ?_, ?_, ?_, ?_, ?_⟩
  · unfold makeRequest
    rcases attempts 0 with _ | _ <;> [skip; simp] <;>
      rcases attempts 1 with _ | _ <;> simp
  · unfold makeRequest
    rcases attempts 0 with _ | _ <;> [skip; simp] <;>
      rcases attempts 1 with _ | _ <;> simp
  · intro r h
    simp [makeRequest, h]
  · intro e0 r h0 h1
    simp [makeRequest, h0, h1]
  · intro e0 e1 r h0 h1 h2
    simp [makeRequest, h0, h1, h2]
  · intro e0 e1 e2 h0 h1 h2
    simp [makeRequest, h0, h1, h2]

/-- Witness for make_request_bounded_retry: a run whose three attempts all
fail propagates the last error. -/
theorem make_request_bounded_retry_witness :
    makeRequest (fun n => (Except.error ⟨"boom" ++ toString n⟩ :
        Except ClientError Unit)) =
      (Except.error ⟨"boom2"⟩, 3, 2) :=
  (make_request_bounded_retry
      (fun n => (Except.error ⟨"boom" ++ toString n⟩ :
        Except ClientError Unit))).2.2.2.2.2
    ⟨"boom0"⟩ ⟨"boom1"⟩ ⟨"boom2"⟩ rfl rfl rfl

/-- C9: the worker-side is-latest client never raises: whenever the
underlying request ends in an exception (after its retries), the method
returns false, and on success it returns the is_latest field of the body,
defaulting to false when the field is absent. -/
theorem client_is_latest_false_on_error
    (attempts : Nat → Except ClientError IsLatestResponse) :
    (∀ e, (makeRequest attempts).1 = Except.error e →
        isPipelineLatestClient attempts = false)
    ∧ (∀ r, (makeRequest attempts).1 = Except.ok r →
        isPipelineLatestClient attempts = r.is_latest.getD false) := by
  constructor
  · intro e h
    simp [isPipelineLatestClient, h]
  · intro r h
    simp [isPipelineLatestClient, h]

/-- Witness for client_is_latest_false_on_error: with every attempt failing
(a network outage), the client reports false. -/
theorem client_is_latest_false_on_error_witness :
    isPipelineLatestClient (fun _ => Except.error ⟨"conn refused"⟩) = false :=
  (client_is_latest_false_on_error
      (fun _ => Except.error ⟨"conn refused"⟩)).1 ⟨"conn refused"⟩ rfl

/-- Parsing a recognized state string yields the member whose value is that
string. -/
theorem ofString_of_mem (s : String) (h : s ∈ stateStrings) :
    ∃ st : ContractState, ContractState.ofString s = some st ∧
      st.toValue = s := by
  simp only [stateStrings, List.mem_cons, List.not_mem_nil, or_false] at h
  rcases h with rfl | rfl | rfl | rfl | rfl | rfl | rfl
  · exact ⟨ContractState.pending, by decide, by decide⟩
  · exact ⟨ContractState.processing, by decide, by decide⟩
  · exact ⟨ContractState.analyzing, by decide, by decide⟩
  · exact ⟨ContractState.evaluating, by decide, by decide⟩
  · exact ⟨ContractState.completed, by decide, by decide⟩
  · exact ⟨ContractState.failed, by decide, by decide⟩
  · exact ⟨ContractState.rejected, by decide, by decide⟩

/-- Parsing an unrecognized state string fails. -/
theorem ofString_of_not_mem (s : String) (h : s ∉ stateStrings) :
    ContractState.ofString s = none := by
  simp only [stateStrings, List.mem_cons, List.not_mem_nil, or_false,
    not_or] at h
  obtain ⟨h1, h2, h3, h4, h5, h6, h7⟩ := h
  simp [ContractState.ofString, h1, h2, h3, h4, h5, h6, h7]

/-- The contract fields no internal-callback handler writes. -/
def untouchedFieldsEq (a b : Contract) : Prop :=
  a.filename = b.filename ∧ a.file_path = b.file_path ∧
  a.file_size = b.file_size ∧ a.content_type = b.content_type ∧
  a.client_id = b.client_id ∧ a.uploaded_by = b.uploaded_by ∧
  a.title = b.title ∧ a.created_at = b.created_at

/-- C5: for an existing contract, reporting a failure twice (with any two
messages) succeeds both times and leaves status failed, the error message
equal to the second message, and the result fields, run history and static
fields untouched; and the report-failure task executor returns normally
whatever the outcome of its callback, swallowing callback errors. -/
theorem report_failure_idempotent (c : Contract) (m1 t1 m2 t2 : String)
    (n1 n2 : Nat) :
    (∀ c1, reportContractFailure (some c) m1 t1 n1 = Except.ok c1 →
      ∀ c2, reportContractFailure (some c1) m2 t2 n2 = Except.ok c2 →
        c2.status = ContractState.failed.toValue ∧
        c2.error_message = some m2 ∧
        c2.analysis_result = c.analysis_result ∧
        c2.evaluation_result = c.evaluation_result ∧
        c2.pipeline_runs = c.pipeline_runs ∧
        untouchedFieldsEq c2 c)
    ∧ ((reportContractFailure (some c) m1 t1 n1).isOk = true)
    ∧ (∀ c1, reportContractFailure (some c) m1 t1 n1 = Except.ok c1 →
        (reportContractFailure (some c1) m2 t2 n2).isOk = true)
    ∧ (∀ o : Except ClientError Unit,
        reportFailureExecutorRun o = Except.ok ()) := by
  refine ⟨?_, ?_, ?_, ?_⟩
  · intro c1 h1 c2 h2
    simp only [reportContractFailure, Except.ok.injEq] at h1 h2
    subst h1; subst h2
    exact ⟨rfl, rfl, rfl, rfl, rfl, rfl, rfl, rfl, rfl, rfl, rfl, rfl, rfl⟩
  · simp [reportContractFailure, Except.isOk, Except.toBool]
  · intro c1 h1
    simp [reportContractFailure, Except.isOk, Except.toBool]
  · intro o
    cases o <;> rfl

/-- Witness for report_failure_idempotent at a concrete contract and two
messages. -/
theorem report_failure_idempotent_witness :
    { sampleContract with
        status := ContractState.failed.toValue
        error_message := some "m2"
        updated_at := 2 }.error_message = some "m2" ∧
    reportFailureExecutorRun (Except.error ⟨"api down"⟩) = Except.ok () :=
  ⟨((report_failure_idempotent sampleContract "m1" "t1" "m2" "t2" 1 2).1
      _ rfl _ rfl).2.1,
   (report_failure_idempotent sampleContract "m1" "t1" "m2" "t2" 1 2).2.2.2
      (Except.error ⟨"api down"⟩)⟩

/-- C6: for an existing contract and any string s, change-state succeeds
and sets the status to s exactly when s is one of the seven recognized
state strings — regardless of the current status — and otherwise fails
with a 400 validation error and saves nothing, leaving the stored record
unchanged. -/
theorem change_state_validation (c : Contract) (s : String)
    (rid : Option String) (now : Nat) :
    (s ∈ stateStrings →
       (changeContractState (some c) s rid now).map Contract.status =
         Except.ok s)
    ∧ (s ∉ stateStrings →
       changeContractState (some c) s rid now =
         Except.error (ApiError.badRequest ("Invalid state: " ++ s))
       ∧ applyOp (some c) (CallbackOp.changeState s rid now) = some c) := by
  constructor
  · intro h
    obtain ⟨st, hof, hval⟩ := ofString_of_mem s h
    cases rid with
    | none => simp [changeContractState, hof, hval, Except.map]
    | some r =>
        by_cases hr : r = "" <;>
          simp [changeContractState, hof, hval, hr, Except.map]
  · intro h
    have hn := ofString_of_not_mem s h
    constructor
    · simp [changeContractState, hn]
    · simp [applyOp, changeContractState, hn]

/-- Witness for change_state_validation: a recognized and an unrecognized
state string against a concrete contract. -/
theorem change_state_validation_witness :
    ((changeContractState (some sampleContract) "processing" none 5).map
        Contract.status = Except.ok "processing")
    ∧ (changeContractState (some sampleContract) "zzz" none 5 =
         Except.error (ApiError.badRequest ("Invalid state: " ++ "zzz"))
       ∧ applyOp (some sampleContract) (CallbackOp.changeState "zzz" none 5) =
           some sampleContract) :=
  ⟨(change_state_validation sampleContract "processing" none 5).1 (by decide),
   (change_state_validation sampleContract "zzz" none 5).2 (by decide)⟩

/-- C10: the public trigger endpoint accepts a contract exactly when its
status is pending, failed or completed; in the accepting case it appends
one processing run and dispatches the fixed chain, and for any other status
— in particular processing, analyzing, evaluating and rejected — it raises
a 400 before mutating or dispatching anything. -/
theorem trigger_state_gating (c : Contract) (rid : String) (now : Nat) :
    (c.status ∈ allowedTriggerStates →
       triggerGenaiAnalysis (some c) rid now =
         Except.ok
           ({ c with
                pipeline_runs := c.pipeline_runs ++
                  [⟨rid, ContractState.processing.toValue, now⟩]
                status := ContractState.processing.toValue
                updated_at := now }, pipelineChainTasks))
    ∧ (c.status ∉ allowedTriggerStates →
       triggerGenaiAnalysis (some c) rid now =
         Except.error (ApiError.badRequest c.status))
    ∧ (ContractState.processing.toValue ∉ allowedTriggerStates
       ∧ ContractState.analyzing.toValue ∉ allowedTriggerStates
       ∧ ContractState.evaluating.toValue ∉ allowedTriggerStates
       ∧ ContractState.rejected.toValue ∉ allowedTriggerStates) := by
  refine ⟨?_, ?_, by decide⟩
  · intro h
    simp [triggerGenaiAnalysis, h]
  · intro h
    simp [triggerGenaiAnalysis, h]

/-- Witness for trigger_state_gating: a pending contract is accepted, an
analyzing contract is rejected with a 400. -/
theorem trigger_state_gating_witness :
    (triggerGenaiAnalysis (some sampleContract) "r1" 3 =
       Except.ok
         ({ sampleContract with
              pipeline_runs := [⟨"r1", ContractState.processing.toValue, 3⟩]
              status := ContractState.processing.toValue
              updated_at := 3 }, pipelineChainTasks))
    ∧ triggerGenaiAnalysis
        (some { sampleContract with status := "analyzing" }) "r1" 3 =
        Except.error (ApiError.badRequest "analyzing") :=
  ⟨(trigger_state_gating sampleContract "r1" 3).1 (by decide),
   (trigger_state_gating { sampleContract with status := "analyzing" }
      "r1" 3).2.1 (by decide)⟩

/-- C1: the is-latest gate in ContractTaskExecutor.start is correct — on a
superseded run it performs the check and nothing else — but the worker's
Celery task wrapper for analyze-clauses invokes the executor's run method
directly, so its effects are the same whether or not the run is latest: in
particular, executing the dispatched step for a superseded run still
performs one durable write (the set-analysis-result callback) and never
performs the is-latest check. -/
theorem superseded_run_gate_bypassed :
    (∀ effs, contractTaskExecutorStart false effs = [StepEffect.latestCheck])
    ∧ (∀ effs, (contractTaskExecutorStart false effs).countP
         (fun e => e.isDurableWrite) = 0)
    ∧ (∀ cid rid b, celeryAnalyzeClausesEffects cid rid b =
         analyzeRunEffects cid rid)
    ∧ ((celeryAnalyzeClausesEffects "c7" "r1" false).countP
         (fun e => e.isDurableWrite) = 1)
    ∧ (StepEffect.callbackWrite "set-analysis-result" ∈
         celeryAnalyzeClausesEffects "c7" "r1" false)
    ∧ ((celeryAnalyzeClausesEffects "c7" "r1" false).countP
         (fun e => e == StepEffect.latestCheck) = 0) := by
  refine ⟨fun effs => rfl, fun effs => rfl, fun cid rid b => rfl,
    by decide, ?_, by decide⟩
  simp [celeryAnalyzeClausesEffects, analyzeRunEffects]

/-- C3: a successful trigger appends exactly one run entry, every prior
entry surviving unchanged as a prefix of the new list; and no
internal-callback operation ever removes or modifies existing run entries —
each leaves the run list equal to the old list plus some appended tail. -/
theorem trigger_appends_single_run (c : Contract) (rid : String)
    (now : Nat) :
    (∀ c' tasks,
       triggerGenaiAnalysis (some c) rid now = Except.ok (c', tasks) →
         c'.pipeline_runs = c.pipeline_runs ++
           [⟨rid, ContractState.processing.toValue, now⟩]
         ∧ c'.pipeline_runs.length = c.pipeline_runs.length + 1
         ∧ c'.pipeline_runs.take c.pipeline_runs.length = c.pipeline_runs)
    ∧ (∀ op c', applyOp (some c) op = some c' →
         ∃ t, c'.pipeline_runs = c.pipeline_runs ++ t) := by
  constructor
  · intro c' tasks h
    by_cases hs : c.status ∈ allowedTriggerStates
    · simp only [triggerGenaiAnalysis, if_pos hs, Except.ok.injEq,
        Prod.mk.injEq] at h
      obtain ⟨hc, -⟩ := h
      subst hc
      refine ⟨rfl, by simp, by simp [List.take_left]⟩
    · simp [triggerGenaiAnalysis, hs] at h
  · intro op c' h
    cases op with
    | changeState s rid2 n =>
        cases hof : ContractState.ofString s with
        | none =>
            simp [applyOp, changeContractState, hof] at h
            exact ⟨[], by simp [← h]⟩
        | some st =>
            cases rid2 with
            | none =>
                simp [applyOp, changeContractState, hof] at h
                exact ⟨[], by simp [← h]⟩
            | some r =>
                by_cases hr : r = ""
                · simp [applyOp, changeContractState, hof, hr] at h
                  exact ⟨[], by simp [← h]⟩
                · simp [applyOp, changeContractState, hof, hr] at h
                  exact ⟨[⟨r, st.toValue, n⟩], by simp [← h]⟩
    | setAnalysis r n =>
        simp [applyOp, setAnalysisResult] at h
        exact ⟨[], by simp [← h]⟩
    | setEvaluation r n =>
        simp [applyOp, setEvaluationResult] at h
        exact ⟨[], by simp [← h]⟩
    | reportFailure m t n =>
        simp [applyOp, reportContractFailure] at h
        exact ⟨[], by simp [← h]⟩

/-- Witness for trigger_appends_single_run: triggering a fresh contract
leaves its (empty) history as a prefix of a one-element run list. -/
theorem trigger_appends_single_run_witness :
    ({ sampleContract with
         pipeline_runs := [⟨"r1", ContractState.processing.toValue, 3⟩]
         status := ContractState.processing.toValue
         updated_at := 3 } : Contract).pipeline_runs =
      sampleContract.pipeline_runs ++
        [⟨"r1", ContractState.processing.toValue, 3⟩] :=
  ((trigger_appends_single_run sampleContract "r1" 3).1 _
    pipelineChainTasks rfl).1

/-- C7: every mutating internal-callback handler answers Not-Found on a
missing contract and writes nothing (no callback sequence can create a
record from an absent one), and on an existing contract each mutates only
its own named fields, always setting the last-modified timestamp to the
current clock. -/
theorem handlers_notfound_and_frame :
    (∀ s rid now, changeContractState none s rid now =
       Except.error ApiError.notFound)
    ∧ (∀ r now, setAnalysisResult none r now =
       Except.error ApiError.notFound)
    ∧ (∀ r now, setEvaluationResult none r now =
       Except.error ApiError.notFound)
    ∧ (∀ m t now, reportContractFailure none m t now =
       Except.error ApiError.notFound)
    ∧ (∀ ops, applyOps none ops = none)
    ∧ (∀ c s rid now c',
        changeContractState (some c) s rid now = Except.ok c' →
          c'.updated_at = now ∧ c'.analysis_result = c.analysis_result ∧
          c'.evaluation_result = c.evaluation_result ∧
          c'.error_message = c.error_message ∧ untouchedFieldsEq c' c)
    ∧ (∀ c r now c',
        setAnalysisResult (some c) r now = Except.ok c' →
          c'.updated_at = now ∧ c'.status = c.status ∧
          c'.evaluation_result = c.evaluation_result ∧
          c'.pipeline_runs = c.pipeline_runs ∧
          c'.error_message = c.error_message ∧ untouchedFieldsEq c' c)
    ∧ (∀ c r now c',
        setEvaluationResult (some c) r now = Except.ok c' →
          c'.updated_at = now ∧ c'.status = c.status ∧
          c'.analysis_result = c.analysis_result ∧
          c'.pipeline_runs = c.pipeline_runs ∧
          c'.error_message = c.error_message ∧ untouchedFieldsEq c' c)
    ∧ (∀ c m t now c',
        reportContractFailure (some c) m t now = Except.ok c' →
          c'.updated_at = now ∧ c'.analysis_result = c.analysis_result ∧
          c'.evaluation_result = c.evaluation_result ∧
          c'.pipeline_runs = c.pipeline_runs ∧ untouchedFieldsEq c' c) := by
  refine ⟨fun s rid now => rfl, fun r now => rfl, fun r now => rfl,
    fun m t now => rfl, ?_, ?_, ?_, ?_, ?_⟩
  · intro ops
    induction ops with
    | nil => rfl
    | cons op rest ih =>
        have hop : applyOp none op = none := by cases op <;> rfl
        simp [applyOps, List.foldl_cons, hop]
        simpa [applyOps] using ih
  · intro c s rid now c' h
    cases hof : ContractState.ofString s with
    | none => simp [changeContractState, hof] at h
    | some st =>
        cases rid with
        | none =>
            simp [changeContractState, hof] at h
            subst h
            exact ⟨rfl, rfl, rfl, rfl, rfl, rfl, rfl, rfl, rfl, rfl, rfl, rfl⟩
        | some r =>
            by_cases hr : r = "" <;>
              [simp [changeContractState, hof, hr] at h;
               simp [changeContractState, hof, hr] at h] <;>
              subst h <;>
              exact ⟨rfl, rfl, rfl, rfl, rfl, rfl, rfl, rfl, rfl, rfl, rfl, rfl⟩
  · intro c r now c' h
    simp only [setAnalysisResult, Except.ok.injEq] at h
    subst h
    exact ⟨rfl, rfl, rfl, rfl, rfl, rfl, rfl, rfl, rfl, rfl, rfl, rfl, rfl⟩
  · intro c r now c' h
    simp only [setEvaluationResult, Except.ok.injEq] at h
    subst h
    exact ⟨rfl, rfl, rfl, rfl, rfl, rfl, rfl, rfl, rfl, rfl, rfl, rfl, rfl⟩
  · intro c m t now c' h
    simp only [reportContractFailure, Except.ok.injEq] at h
    subst h
    exact ⟨rfl, rfl, rfl, rfl, rfl, rfl, rfl, rfl, rfl, rfl, rfl, rfl⟩

/-- Witness for handlers_notfound_and_frame: each handler applied to a
concrete contract, plus the Not-Found case. -/
theorem handlers_notfound_and_frame_witness :
    setAnalysisResult none sampleAnalysis 4 = Except.error ApiError.notFound
    ∧ ({ sampleContract with
           analysis_result := some sampleAnalysis
           updated_at := 4 } : Contract).updated_at = 4
    ∧ ({ sampleContract with
           evaluation_result := some sampleEval
           updated_at := 5 } : Contract).updated_at = 5
    ∧ ({ sampleContract with
           status := ContractState.failed.toValue
           error_message := some "m"
           updated_at := 6 } : Contract).updated_at = 6
    ∧ ({ sampleContract with
           status := ContractState.completed.toValue
           updated_at := 7 } : Contract).updated_at = 7 :=
  ⟨handlers_notfound_and_frame.2.1 sampleAnalysis 4,
   (handlers_notfound_and_frame.2.2.2.2.2.2.1 sampleContract
      sampleAnalysis 4 _ rfl).1,
   (handlers_notfound_and_frame.2.2.2.2.2.2.2.1 sampleContract
      sampleEval 5 _ rfl).1,
   (handlers_notfound_and_frame.2.2.2.2.2.2.2.2 sampleContract
      "m" "t" 6 _ rfl).1,
   (handlers_notfound_and_frame.2.2.2.2.2.1 sampleContract
      "completed" none 7 _ rfl).1⟩

/-- C2 counterexample: the set-evaluation-result handler stores its result
without checking the analysis result, so a single internal callback applied
to a freshly created contract yields a record whose evaluation_result is
non-null while analysis_result is null. -/
theorem eval_without_analysis_counterexample :
    (applyOps (some sampleContract)
        [CallbackOp.setEvaluation sampleEval 1]).map
      (fun c => (c.evaluation_result.isSome, c.analysis_result.isSome)) =
      some (true, false) := rfl

/-- Guard on a callback sequence: every set-evaluation-result call is
preceded by some set-analysis-result call (the seen flag records whether
one has occurred already).  The pipeline coordinator only issues sequences
of this shape, since evaluate-health runs after analyze-clauses. -/
def evalAfterAnalysis (seen : Bool) : List CallbackOp → Bool
  | [] => true
  | CallbackOp.setAnalysis _ _ :: rest => evalAfterAnalysis true rest
  | CallbackOp.setEvaluation _ _ :: rest =>
      seen && evalAfterAnalysis seen rest
  | CallbackOp.changeState _ _ _ :: rest => evalAfterAnalysis seen rest
  | CallbackOp.reportFailure _ _ _ :: rest => evalAfterAnalysis seen rest

/-- Invariant transport for guarded callback sequences. -/
theorem applyOps_eval_guarded (ops : List CallbackOp) :
    ∀ (seen : Bool) (c c' : Contract),
      evalAfterAnalysis seen ops = true →
      (c.evaluation_result.isSome = true →
        c.analysis_result.isSome = true) →
      (seen = true → c.analysis_result.isSome = true) →
      applyOps (some c) ops = some c' →
      (c'.evaluation_result.isSome = true →
        c'.analysis_result.isSome = true) := by
  induction ops with
  | nil =>
      intro seen c c' hg hinv hseen h
      simp only [applyOps, List.foldl_nil, Option.some.injEq] at h
      subst h
      exact hinv
  | cons op rest ih =>
      intro seen c c' hg hinv hseen h
      simp only [applyOps, List.foldl_cons] at h
      cases op with
      | setAnalysis r n =>
          have hop : applyOp (some c) (CallbackOp.setAnalysis r n) =
              some { c with analysis_result := some r, updated_at := n } := rfl
          rw [hop] at h
          exact ih true _ c' hg (by simp) (by simp) h
      | setEvaluation r n =>
          simp only [evalAfterAnalysis, Bool.and_eq_true] at hg
          obtain ⟨hst, hg2⟩ := hg
          subst hst
          have hA : c.analysis_result.isSome = true := hseen rfl
          have hop : applyOp (some c) (CallbackOp.setEvaluation r n) =
              some { c with evaluation_result := some r, updated_at := n } :=
            rfl
          rw [hop] at h
          refine ih true _ c' hg2 ?_ ?_ h
          · intro _; simpa using hA
          · intro _; simpa using hA
      | reportFailure m t n =>
          have hop : applyOp (some c) (CallbackOp.reportFailure m t n) =
              some { c with status := ContractState.failed.toValue,
                            error_message := some m, updated_at := n } := rfl
          rw [hop] at h
          refine ih seen _ c' hg ?_ ?_ h
          · intro he; simpa using hinv (by simpa using he)
          · intro hs; simpa using hseen hs
      | changeState s rid n =>
          cases hof : ContractState.ofString s with
          | none =>
              have hop : applyOp (some c) (CallbackOp.changeState s rid n) =
                  some c := by
                simp [applyOp, changeContractState, hof]
              rw [hop] at h
              exact ih seen c c' hg hinv hseen h
          | some st =>
              cases rid with
              | none =>
                  have hop : applyOp (some c)
                      (CallbackOp.changeState s none n) =
                      some { c with status := st.toValue,
                                    updated_at := n } := by
                    simp [applyOp, changeContractState, hof]
                  rw [hop] at h
                  refine ih seen _ c' hg ?_ ?_ h
                  · intro he; simpa using hinv (by simpa using he)
                  · intro hs; simpa using hseen hs
              | some r =>
                  by_cases hr : r = ""
                  · have hop : applyOp (some c)
                        (CallbackOp.changeState s (some r) n) =
                        some { c with status := st.toValue,
                                      updated_at := n } := by
                      simp [applyOp, changeContractState, hof, hr]
                    rw [hop] at h
                    refine ih seen _ c' hg ?_ ?_ h
                    · intro he; simpa using hinv (by simpa using he)
                    · intro hs; simpa using hseen hs
                  · have hop : applyOp (some c)
                        (CallbackOp.changeState s (some r) n) =
                        some { c with
                                 status := st.toValue
                                 updated_at := n
                                 pipeline_runs := c.pipeline_runs ++
                                   [⟨r, st.toValue, n⟩] } := by
                      simp [applyOp, changeContractState, hof, hr]
                    rw [hop] at h
                    refine ih seen _ c' hg ?_ ?_ h
                    · intro he; simpa using hinv (by simpa using he)
                    · intro hs; simpa using hseen hs

/-- C2 amended: starting from a freshly created contract, for every
internal-callback sequence in which each set-evaluation-result call is
preceded by some set-analysis-result call (as in every coordinator-issued
pipeline), any reachable record with a non-null evaluation_result also has
a non-null analysis_result. -/
theorem eval_implies_analysis_guarded (ops : List CallbackOp)
    (fn fp : String) (sz : Nat) (ct : String) (cl : Option String)
    (ub : String) (t0 : Nat) (c' : Contract)
    (hg : evalAfterAnalysis false ops = true)
    (h : applyOps (some (freshContract fn fp sz ct cl ub t0)) ops = some c')
    (he : c'.evaluation_result.isSome = true) :
    c'.analysis_result.isSome = true :=
  applyOps_eval_guarded ops false _ c' hg
    (by simp [freshContract]) (by simp) h he

/-- Witness for eval_implies_analysis_guarded: a coordinator-shaped
sequence that sets the analysis result and then the evaluation result. -/
theorem eval_implies_analysis_guarded_witness :
    ({ sampleContract with
         analysis_result := some sampleAnalysis
         evaluation_result := some sampleEval
         updated_at := 2 } : Contract).analysis_result.isSome = true :=
  eval_implies_analysis_guarded
    [CallbackOp.setAnalysis sampleAnalysis 1,
     CallbackOp.setEvaluation sampleEval 2]
    "a.pdf" "uploads/a.pdf" 10 "application/pdf" none "alice" 0
    _ rfl rfl rfl

end PwC
